import Mathlib

/-!
Verification of the transport + pagination core of the notionkit repository.

The definitions below are a shallow embedding of:
  * `HTTP.fetch` in src/packages/sdk/src/util/http/client.ts (the rxjs pipeline
    `fromFetch → shareReplay(1) → switchMap → retryWhen(scan/delayWhen) → catchError`,
    plus the optional `race` against `timer(config.timeout)`);
  * `GetOperator.paginated` in src/unnamed/part_008 (lines 370-423: the
    `defer → takeUntil(cancel$) → expand → map` pipeline and its reporter updates);
  * `SearchRunner.run` in src/packages/sdk/src/operators/search.ts;
  * the global-timeout handler of `GetOperator.execute` (src/unnamed/part_008,
    lines 314-327).

Machine integers do not occur: all counters are Nat.  The reporter
(`@mateothegreat/ts-kit` Reporter) is modelled as a record mutated in program
order by `apply(add(...), set(...))`.
-/

namespace NotionKit

/-! ## HTTP client: data model (client.ts) -/

/-- HTTPConfig fields consumed by `HTTP.fetch`'s retry/timeout machinery.
`none` models a JS `undefined` field. -/
structure HTTPConfig where
  timeout : Option Nat := none
  retries : Option Nat := none
  backoff : Option Nat := none
deriving Repr, DecidableEq

/-- The network's answer to one executed `fromFetch`: the `Response` object.
`ok` is `response.ok`; `parseOk` records whether `response.json()` succeeds
on a first read of the body when the status is ok. -/
structure FetchResponse where
  ok : Bool
  status : Nat
  parseOk : Bool
deriving Repr, DecidableEq

/-- Reporter state (OperatorReport): the fields written by the transport and
pagination code via `reporter.apply(add(...), set(...))`. -/
structure Report where
  stage : String := "requesting"
  requests : Nat := 0
  items : Nat := 0
  errors : Nat := 0
  message : String := ""
deriving Repr, DecidableEq

/-- State threaded through one `HTTP.fetch` execution:
`fired` counts actual network executions of the `fromFetch` source;
`cache` is the `shareReplay(1)` buffer holding the emitted `Response`;
`bodyUsed` records whether the cached Response's body has been consumed
(a second `text()`/`json()` on the same Response rejects);
`delays` lists the backoff waits inserted by `delayWhen`, in order;
`processings` counts executions of the `switchMap` projection, i.e. attempts. -/
structure HState where
  fired : Nat
  cache : Option FetchResponse
  bodyUsed : Bool
  report : Report
  delays : List Nat
  processings : Nat
deriving Repr, DecidableEq

/-- Fresh state for a new `HTTP.fetch` call with initial reporter `rep`. -/
def initialHState (rep : Report) : HState :=
  { fired := 0, cache := none, bodyUsed := false, report := rep
    delays := [], processings := 0 }

/-- One subscription to `raw$ = fromFetch(...).pipe(shareReplay(1))`
(client.ts lines 145-156).  With the default `shareReplay(1)` configuration
(`refCount: false`) the underlying fetch executes only when nothing is
buffered; afterwards every subscriber receives the buffered Response.
`server n` is the response the network would return to the n-th fetch. -/
def subscribeRaw (server : Nat → FetchResponse) (s : HState) : FetchResponse × HState :=
  match s.cache with
  | some r => (r, s)
  | none =>
      let r := server (s.fired + 1)
      (r, { s with fired := s.fired + 1, cache := some r })

/-- Result of one execution of the `switchMap` projection. -/
inductive ProcResult
  | ok
  | err (reported : Bool)
deriving Repr, DecidableEq

/-- One execution of the `switchMap` projection of client.ts (lines 158-175)
on the (cached) Response `r`:
if the body was already consumed by an earlier attempt, `response.text()` /
`response.json()` rejects before any reporter call;
if the status is not ok, the text branch applies
`add("errors",1), set("stage","error"), set("message",...)` and throws;
if the status is ok and the body parses, the map applies
`set("stage","complete")` and the attempt succeeds;
an ok status whose body fails to parse errors without a reporter call. -/
def processOnce (r : FetchResponse) (s : HState) : ProcResult × HState :=
  let s1 := { s with processings := s.processings + 1 }
  if s.bodyUsed then
    (.err false, s1)
  else if !r.ok then
    (.err true,
      { s1 with bodyUsed := true
                report := { s1.report with
                  errors := s1.report.errors + 1
                  stage := "error"
                  message := "a fetch error occurred: " ++ toString r.status } })
  else if r.parseOk then
    (.ok, { s1 with bodyUsed := true
                    report := { s1.report with stage := "complete" } })
  else
    (.err false, { s1 with bodyUsed := true })

/-- Backoff wait inserted by
`delayWhen((retryCount) => timer(config.backoff ?? 500 * Math.pow(2, retryCount)))`
(client.ts line 189) before re-subscribing after the k-th error; the scan emits
the already-incremented count, so `k` is 1-based.  Because `??` binds looser
than `*`, a configured backoff is used as a constant delay and the exponential
factor applies only to the 500ms default. -/
def retryDelay (cfg : HTTPConfig) (k : Nat) : Nat :=
  cfg.backoff.getD (500 * 2 ^ k)

/-- Reporter mutation of the scan's retry branch (client.ts lines 178-187):
`add("errors",1), set("stage","retry"), set("message",...)`, followed by the
delayWhen wait of `retryDelay cfg k` (recorded in `delays`). -/
def retryAdvance (cfg : HTTPConfig) (k : Nat) (s : HState) : HState :=
  { s with
    report := { s.report with
      errors := s.report.errors + 1
      stage := "retry"
      message := "retrying" }
    delays := s.delays ++ [retryDelay cfg k] }

/-- Reporter mutation of the final `catchError` (client.ts lines 191-194):
`add("errors",1), set("stage","error"), set("message", error.message)`. -/
def catchFail (s : HState) : HState :=
  { s with report := { s.report with
      errors := s.report.errors + 1
      stage := "error"
      message := "terminal" } }

/-- The retry loop of client.ts lines 176-195: `retryWhen` with
`scan((retryCount, error) => { if (retryCount >= (config.retries ?? 3)) throw error; ... })`
followed by the final `catchError`.  `fuel` is the remaining budget
`(config.retries ?? 3) - retryCount` and `retryCount` the scan accumulator.
Each iteration re-subscribes the source, which replays the cached Response
(`subscribeRaw`) and re-runs the switchMap projection (`processOnce`).
On an error with exhausted budget the scan rethrows and the catchError
(`catchFail`) terminates the stream; otherwise the scan's retry branch
(`retryAdvance`) waits the backoff delay and re-subscribes. -/
def attemptLoop (cfg : HTTPConfig) (server : Nat → FetchResponse)
    (fuel retryCount : Nat) (s : HState) : Bool × HState :=
  match processOnce (subscribeRaw server s).1 (subscribeRaw server s).2 with
  | (.ok, s2) => (true, s2)
  | (.err _, s2) =>
    match fuel with
    | 0 => (false, catchFail s2)
    | fuel' + 1 =>
        attemptLoop cfg server fuel' (retryCount + 1)
          (retryAdvance cfg (retryCount + 1) s2)

/-- One subscription to `request$` (the data$ pipeline of `HTTP.fetch` without
the timeout race), starting from the shared state `s`: the retry loop with the
full budget `config.retries ?? 3` and scan accumulator 0. -/
def runData (cfg : HTTPConfig) (server : Nat → FetchResponse) (s : HState) :
    Bool × HState :=
  attemptLoop cfg server (cfg.retries.getD 3) 0 s

/-- JS truthiness of `config.timeout` in `if (config.timeout)` (client.ts
line 197): the race against `timer(config.timeout)` is installed only for a
present, non-zero timeout. -/
def timeoutInstalled (cfg : HTTPConfig) : Bool :=
  match cfg.timeout with
  | none => false
  | some t => t != 0

/-- Terminal outcome of subscribing the data$ observable returned by
`HTTP.fetch`. -/
structure FetchOutcome where
  success : Bool
  aborted : Bool
  state : HState
deriving Repr, DecidableEq

/-- The data$ observable handed to `HTTPResponse` by `HTTP.fetch`
(client.ts lines 197-222): `race(request$, timer(config.timeout) → abort …)`
when `config.timeout` is truthy, plain `request$` otherwise.  `timerWins`
resolves the nondeterministic race and is consulted only when the race exists;
the timer branch aborts the in-flight controller and applies
`add("errors",1), set("stage","timeout"), set("message",...)` (modelled at the
canonical point before the first response arrives). -/
def runFetch (cfg : HTTPConfig) (server : Nat → FetchResponse) (rep : Report)
    (timerWins : Bool) : FetchOutcome :=
  if timeoutInstalled cfg && timerWins then
    { success := false, aborted := true
      state := { fired := 1, cache := some (server 1), bodyUsed := false
                 report := { rep with
                   errors := rep.errors + 1
                   stage := "timeout"
                   message := "aborted request due to timeout" }
                 delays := [], processings := 0 } }
  else
    let out := runData cfg server (initialHState rep)
    { success := out.1, aborted := false, state := out.2 }

/-! ## Multiple consumers of one HTTPResponse (claim C8)

`HTTPResponse` exposes `raw$` (the shared fromFetch) and `data$ = request$`
built by piping `raw$` through the switchMap/retryWhen chain.  Only `raw$`
carries the `shareReplay(1)`; each subscription to `data$` re-runs the
projection chain against the shared cached Response. -/

/-- A consumer attaching to the outcome: a `raw$` subscriber or a `data$`
subscriber. -/
inductive Consumer
  | raw
  | data
deriving Repr, DecidableEq

/-- What one consumer observes. -/
inductive ConsumerOutcome
  | response (r : FetchResponse)
  | parsed
  | failed
deriving Repr, DecidableEq

/-- Subscribe a list of consumers, in order, to the `raw$`/`data$` observables
of a single `HTTPResponse` returned by `HTTP.fetch` (no per-call timeout).
A raw subscriber receives the cached Response (firing the network only if
nothing is cached yet); a data subscriber runs the full switchMap/retry chain
against the shared state. -/
def subscribeAll (cfg : HTTPConfig) (server : Nat → FetchResponse) :
    List Consumer → HState → List ConsumerOutcome × HState
  | [], s => ([], s)
  | .raw :: cs, s =>
      (.response (subscribeRaw server s).1
          :: (subscribeAll cfg server cs (subscribeRaw server s).2).1,
        (subscribeAll cfg server cs (subscribeRaw server s).2).2)
  | .data :: cs, s =>
      ((if (runData cfg server s).1 then .parsed else .failed)
          :: (subscribeAll cfg server cs (runData cfg server s).2).1,
        (subscribeAll cfg server cs (runData cfg server s).2).2)

/-! ## Pagination: GetOperator.paginated (src/unnamed/part_008, lines 370-423) -/

/-- One parsed property-list page as seen by the pagination pipeline:
the length of `results`, the `has_more` flag, and the `next_cursor`. -/
structure PageResp where
  results : Nat
  has_more : Bool
  next_cursor : Option String
deriving Repr, DecidableEq

/-- JS truthiness of `response.next_cursor` in `!response.next_cursor`
(null, undefined and the empty string are falsy). -/
def cursorTruthy : Option String → Bool
  | none => false
  | some s => s != ""

/-- The `operatorConfig.limits` object as read by `GetOperator.paginated`
(`limits?.pages`, `limits?.results`). -/
structure Limits where
  pages : Option Nat := none
  results : Option Nat := none
deriving Repr, DecidableEq

/-- Stop condition of the expand projection (part_008 lines 390-395):
`(limits?.pages !== undefined && state.requests >= limits.pages) ||
 (limits?.results !== undefined && state.items >= limits.results) ||
 !response.has_more || !response.next_cursor`,
evaluated on the reporter snapshot taken at the start of the projection. -/
def getStop (limits : Option Limits) (rep : Report) (p : PageResp) : Bool :=
  (match limits.bind (fun l => l.pages) with
   | some pg => decide (pg ≤ rep.requests)
   | none => false)
  || (match limits.bind (fun l => l.results) with
      | some r => decide (r ≤ rep.items)
      | none => false)
  || !p.has_more
  || !cursorTruthy p.next_cursor

/-- JS truthiness of `operatorConfig.limits?.results` in the trimming map
(part_008 line 407): undefined and 0 are falsy. -/
def resultsLimitTruthy (limits : Option Limits) : Option Nat :=
  match limits.bind (fun l => l.results) with
  | some r => if r = 0 then none else some r
  | none => none

/-- The trimming map (part_008 lines 406-417): when `limits?.results` is
truthy, `remaining = Math.max(0, limits.results - reporter.snapshot().items)`
and the page's results are sliced to `remaining` when `remaining` is smaller.
Returns the emitted result count of the page. -/
def trimPage (limits : Option Limits) (itemsSoFar : Nat) (p : PageResp) : Nat :=
  match resultsLimitTruthy limits with
  | some r =>
      let remaining := r - itemsSoFar
      if remaining < p.results then remaining else p.results
  | none => p.results

/-- The data$ pipeline of `GetOperator.paginated` over the server's page
sequence.  rxjs `expand` (v7, mergeInternals with the expand flag) emits each
value downstream — here through the trimming `map` — BEFORE invoking the
projection on it, so the map for a page reads the reporter state from before
that page's projection.  The projection (part_008 lines 388-404) increments
`requests` and `items` only in its stop branch
(`set("stage","complete"), add("requests",1), add("items", results.length)`);
the continue branch applies only `set("stage","paginating")` and fetches the
next page.  Returns (emitted result counts per page, final reporter,
number of continue branches = extra page fetches beyond the first). -/
def getPagSteps (limits : Option Limits) : List PageResp → Report → List Nat × Report × Nat
  | [], rep => ([], rep, 0)
  | p :: rest, rep =>
      let emitted := trimPage limits rep.items p
      if getStop limits rep p then
        ([emitted],
         { rep with stage := "complete", requests := rep.requests + 1
                    items := rep.items + p.results }, 0)
      else
        let tail := getPagSteps limits rest { rep with stage := "paginating" }
        (emitted :: tail.1, tail.2.1, tail.2.2 + 1)

/-- Emitted result counts of one paginated get run. -/
def getPagEmitted (limits : Option Limits) (ps : List PageResp) (rep : Report) : List Nat :=
  (getPagSteps limits ps rep).1

/-- Total network page requests issued by one subscription to the data$ of
`GetOperator.paginated`: the deferred initial `fetchPage` plus one per
continue branch. -/
def getPagFetches (limits : Option Limits) (ps : List PageResp) (rep : Report) : Nat :=
  1 + (getPagSteps limits ps rep).2.2

/-- Cancellation semantics of `takeUntil(cancel$)` placed BEFORE `expand`
(part_008 lines 386-387): the takeUntil can only complete the outer source,
namely the deferred first-page observable, which emits its single page and
completes; pages produced by expand's inner subscriptions never pass through
it, and `cancel$` is a plain Subject with no replay.  `cancelAt = 0` means the
signal fires after subscription but before the first page emission (the only
window in which it has an effect); `cancelAt = k ≥ 1` means it fires after the
k-th page emission and its synchronous projection — by which point the outer
source has long completed, so the run continues to its natural end.
Returns (emitted counts, total page fetches, page fetches issued after the
signal fired). -/
def getPagCancelled (limits : Option Limits) (ps : List PageResp) (rep : Report)
    (cancelAt : Nat) : List Nat × Nat × Nat :=
  if cancelAt = 0 then
    ([], 1, 0)
  else
    let total := getPagFetches limits ps rep
    (getPagEmitted limits ps rep, total, total - (cancelAt + 1))

/-- The global-timeout handler installed by `GetOperator.execute`
(part_008 lines 314-327): when `operatorConfig.timeout` fires it applies
`set("stage","error"), set("message", "operation timed out after ...ms")`
and then triggers the cancel subject. -/
def execTimeoutHandler (t : Nat) (rep : Report) : Report :=
  { rep with stage := "error"
             message := "operation timed out after " ++ toString t ++ "ms" }

/-! ## Pagination: SearchRunner.run (src/packages/sdk/src/operators/search.ts) -/

/-- The `config?.limits` object as read by `SearchRunner.run`
(`limits?.requests`, `limits?.results`). -/
structure SearchLimits where
  requests : Option Nat := none
  results : Option Nat := none
deriving Repr, DecidableEq

/-- Stop condition of SearchRunner's expand projection (search.ts
lines 115-120), evaluated on the snapshot taken AFTER applying this response's
metrics: `!response.has_more || !response.next_cursor ||
(config?.limits?.requests && state && state.requests >= config.limits.requests) ||
(config?.limits?.results && state && state.items >= config.limits.results)`.
The limit guards are JS-truthy tests, so an absent or zero limit is skipped. -/
def searchStop (limits : Option SearchLimits) (rep : Report) (p : PageResp) : Bool :=
  !p.has_more || !cursorTruthy p.next_cursor
  || (match limits.bind (fun l => l.requests) with
      | some q => decide (0 < q) && decide (q ≤ rep.requests)
      | none => false)
  || (match limits.bind (fun l => l.results) with
      | some r => decide (0 < r) && decide (r ≤ rep.items)
      | none => false)

/-- The data$ pipeline of `SearchRunner.run` over the server's page sequence.
The expand projection (search.ts lines 96-137) FIRST applies
`set("stage","paginating"), add("items", results.length), add("requests",1)`,
then snapshots and evaluates the stop condition; the stop branch applies
`set("stage","complete")` and returns EMPTY, the continue branch posts the
next page request.  Returns (emitted result counts, final reporter, number of
continue branches). -/
def searchSteps (limits : Option SearchLimits) : List PageResp → Report → List Nat × Report × Nat
  | [], rep => ([], rep, 0)
  | p :: rest, rep =>
      let rep1 := { rep with stage := "paginating", items := rep.items + p.results
                             requests := rep.requests + 1 }
      if searchStop limits rep1 p then
        ([p.results], { rep1 with stage := "complete" }, 0)
      else
        let tail := searchSteps limits rest rep1
        (p.results :: tail.1, tail.2.1, tail.2.2 + 1)

/-- Total network requests issued by one subscription to the data$ of
`SearchRunner.run`: the deferred initial fetch plus one per continue branch. -/
def searchFetches (limits : Option SearchLimits) (ps : List PageResp) (rep : Report) : Nat :=
  1 + (searchSteps limits ps rep).2.2

/-- A page that lets pagination continue: `has_more` is set and the cursor is
truthy. -/
def continuing (p : PageResp) : Bool := p.has_more && cursorTruthy p.next_cursor

/-! ## raw$ of the paginated HTTPResponse (claim C10)

`GetOperator.paginated` builds `new HTTPResponse(defer(() => fetchPage(request).data$).pipe(...),
fetchPage(request).raw$, reporter, ...)` (part_008 lines 384-422).  Argument
evaluation calls `fetchPage(request)` a second time at construction; the
deferred pipeline calls it again on subscription and once per continue branch.
Each `fetchPage` call is a fresh `HTTP.fetch` with its own private
`shareReplay(1)` cache, so instances never share a network execution. -/

/-- HTTP.fetch instances allocated by `GetOperator.paginated`, identified by
allocation order: instance 0 is the `fetchPage(request)` evaluated for the
`raw$` constructor argument; instances 1, 2, … are allocated by the data$
pipeline (the defer, then each continue branch), in order. -/
structure PagInstances where
  rawInstance : Nat
  dataInstances : List Nat
deriving Repr, DecidableEq

/-- The instances of one paginated get: instance 0 backs `raw$`; the data$ run
allocates `getPagFetches` further instances. -/
def pagInstances (limits : Option Limits) (ps : List PageResp) (rep : Report) : PagInstances :=
  { rawInstance := 0
    dataInstances := (List.range (getPagFetches limits ps rep)).map (fun i => i + 1) }

/-- Network requests performed for a given subscription pattern on the
HTTPResponse returned by `GetOperator.paginated`: each instance fires its own
fromFetch on its first subscription (its shareReplay cache is private), so the
data$ run fires once per page and a `raw$` subscription fires once more on
instance 0. -/
def pagNetworkRequests (limits : Option Limits) (ps : List PageResp) (rep : Report)
    (subData subRaw : Bool) : Nat :=
  (if subData then getPagFetches limits ps rep else 0) + (if subRaw then 1 else 0)

/-! ## Concrete inputs used by the claim scenarios -/

/-- Reporter as initialized by `GetOperator.execute` (part_008 lines 305-312):
stage "requesting", all counters zero. -/
def rep0 : Report := {}

/-- A server that answers every fetch with HTTP 404. -/
def server404 : Nat → FetchResponse := fun _ => ⟨false, 404, true⟩

/-- A server that answers the first two fetches with HTTP 503 and the third
with HTTP 200 (the spec's retry scenario). -/
def server503x : Nat → FetchResponse := fun n =>
  if n ≤ 2 then ⟨false, 503, true⟩ else ⟨true, 200, true⟩

/-- A server that always answers HTTP 200 with a parsable body. -/
def serverOk : Nat → FetchResponse := fun _ => ⟨true, 200, true⟩

/-- Three property-list pages of 11, 11 and 8 results (the spec's pagination
scenario: 30 results total, the third page is the last). -/
def ps3 : List PageResp :=
  [⟨11, true, some "a"⟩, ⟨11, true, some "b"⟩, ⟨8, false, none⟩]

/-- Three pages of 11, 11 and 8 results that all advertise a further page. -/
def ps3cont : List PageResp :=
  [⟨11, true, some "a"⟩, ⟨11, true, some "b"⟩, ⟨8, true, some "c"⟩]

/-! ## Helper lemmas on the transport model -/

/-- Resubscribing the shared fromFetch when a Response is already cached
replays it without a network fire. -/
lemma subscribeRaw_cached (server : Nat → FetchResponse) (s : HState)
    (r : FetchResponse) (hc : s.cache = some r) :
    subscribeRaw server s = (r, s) := by
  simp [subscribeRaw, hc]

/-- The switchMap projection never touches the fetch counter or the cache. -/
lemma processOnce_cache (r : FetchResponse) (s : HState) :
    (processOnce r s).2.cache = s.cache ∧ (processOnce r s).2.fired = s.fired := by
  simp only [processOnce]
  split
  · simp
  · split
    · simp
    · split <;> simp

/-- Processing a Response whose body is already consumed errors before any
reporter call. -/
lemma processOnce_bodyUsed (r : FetchResponse) (s : HState) (hb : s.bodyUsed = true) :
    processOnce r s = (.err false, { s with processings := s.processings + 1 }) := by
  simp [processOnce, hb]

/-- A retry loop entered with a cached response whose body is already consumed
fails after exhausting the budget: every re-subscription replays the cache
(no network fire), every re-processing errors before any reporter call, each
of the `fuel` retries adds one backoff delay and one error increment, and the
final catchError adds one more error increment and sets stage "error". -/
lemma attemptLoop_allFail (cfg : HTTPConfig) (server : Nat → FetchResponse)
    (r : FetchResponse) :
    ∀ (fuel k : Nat) (s : HState), s.cache = some r → s.bodyUsed = true →
      (attemptLoop cfg server fuel k s).1 = false
      ∧ (attemptLoop cfg server fuel k s).2.fired = s.fired
      ∧ (attemptLoop cfg server fuel k s).2.delays.length = s.delays.length + fuel
      ∧ (attemptLoop cfg server fuel k s).2.report.errors = s.report.errors + fuel + 1
      ∧ (attemptLoop cfg server fuel k s).2.processings = s.processings + fuel + 1
      ∧ (attemptLoop cfg server fuel k s).2.report.stage = "error" := by
  intro fuel
  induction fuel with
  | zero =>
      intro k s hc hb
      rw [attemptLoop, subscribeRaw_cached server s r hc, processOnce_bodyUsed r s hb]
      simp [catchFail]
  | succ n ih =>
      intro k s hc hb
      rw [attemptLoop, subscribeRaw_cached server s r hc, processOnce_bodyUsed r s hb]
      obtain ⟨h1, h2, h3, h4, h5, h6⟩ := ih (k + 1)
        (retryAdvance cfg (k + 1) { s with processings := s.processings + 1 })
        (by simp [retryAdvance, hc]) (by simp [retryAdvance, hb])
      refine ⟨h1, ?_, ?_, ?_, ?_, h6⟩
      · rw [h2]; simp [retryAdvance]
      · rw [h3]; simp [retryAdvance]; omega
      · rw [h4]; simp [retryAdvance]; omega
      · rw [h5]; simp [retryAdvance]; omega

/-- Subscribing the shared fromFetch with an empty cache fires the network
once and caches the answer. -/
lemma subscribeRaw_fresh (server : Nat → FetchResponse) (s : HState)
    (hc : s.cache = none) (hf : s.fired = 0) :
    subscribeRaw server s
      = (server 1, { s with fired := 1, cache := some (server 1) }) := by
  simp [subscribeRaw, hc, hf]

/-- Processing a fresh Response with a failing HTTP status takes the text
branch: one error increment, stage "error", and a thrown error. -/
lemma processOnce_httpError (r : FetchResponse) (s : HState)
    (hb : s.bodyUsed = false) (hok : r.ok = false) :
    processOnce r s
      = (.err true,
         { s with bodyUsed := true, processings := s.processings + 1
                  report := { s.report with
                    errors := s.report.errors + 1
                    stage := "error"
                    message := "a fetch error occurred: " ++ toString r.status } }) := by
  simp [processOnce, hb, hok]

/-- The retry loop preserves the cached Response and the fetch counter: no
iteration ever re-fires the network once a Response is cached. -/
lemma attemptLoop_keepState (cfg : HTTPConfig) (server : Nat → FetchResponse) :
    ∀ (fuel k : Nat) (s : HState) (r : FetchResponse), s.cache = some r →
      (attemptLoop cfg server fuel k s).2.cache = some r
      ∧ (attemptLoop cfg server fuel k s).2.fired = s.fired := by
  intro fuel
  induction fuel with
  | zero =>
      intro k s r hc
      rw [attemptLoop, subscribeRaw_cached server s r hc]
      rcases hp : processOnce r s with ⟨pr, s2⟩
      have hcc := processOnce_cache r s
      rw [hp] at hcc
      simp only [] at hcc
      cases pr <;> simp [catchFail, hcc.1, hcc.2, hc]
  | succ n ih =>
      intro k s r hc
      rw [attemptLoop, subscribeRaw_cached server s r hc]
      rcases hp : processOnce r s with ⟨pr, s2⟩
      have hcc := processOnce_cache r s
      rw [hp] at hcc
      simp only [] at hcc
      cases pr with
      | ok => exact ⟨hcc.1.trans hc, hcc.2⟩
      | err rp =>
          have h := ih (k + 1) (retryAdvance cfg (k + 1) s2) r
            (by simp [retryAdvance, hcc.1, hc])
          exact ⟨h.1, h.2.trans (by simp [retryAdvance, hcc.2])⟩

/-- From a fresh shared state the retry loop fires the network exactly once
and ends with the first answer cached. -/
lemma attemptLoop_freshOnce (cfg : HTTPConfig) (server : Nat → FetchResponse)
    (fuel k : Nat) (s : HState) (hc : s.cache = none) (hf : s.fired = 0) :
    (attemptLoop cfg server fuel k s).2.cache = some (server 1)
    ∧ (attemptLoop cfg server fuel k s).2.fired = 1 := by
  rw [attemptLoop, subscribeRaw_fresh server s hc hf]
  rcases hp : processOnce (server 1) { s with fired := 1, cache := some (server 1) }
    with ⟨pr, s2⟩
  have hcc := processOnce_cache (server 1) { s with fired := 1, cache := some (server 1) }
  rw [hp] at hcc
  simp only [] at hcc
  cases pr with
  | ok => exact ⟨hcc.1, hcc.2⟩
  | err rp =>
      cases fuel with
      | zero => simp [catchFail, hcc.1, hcc.2]
      | succ n =>
          have h := attemptLoop_keepState cfg server n (k + 1)
            (retryAdvance cfg (k + 1) s2) (server 1) (by simp [retryAdvance, hcc.1])
          exact ⟨h.1, h.2.trans (by simp [retryAdvance, hcc.2])⟩

/-- Only the parse-success branch of the projection reports success. -/
lemma processOnce_ok_stage (r : FetchResponse) (s : HState) :
    (processOnce r s).1 = .ok → (processOnce r s).2.report.stage = "complete" := by
  simp only [processOnce]
  split
  · simp
  · split
    · simp
    · split <;> simp

/-- Whatever the server does, the retry loop terminates with stage "complete"
on success and stage "error" on failure: the plain `request$` pipeline can
never leave the reporter in stage "timeout". -/
lemma attemptLoop_stage (cfg : HTTPConfig) (server : Nat → FetchResponse) :
    ∀ (fuel k : Nat) (s : HState),
      ((attemptLoop cfg server fuel k s).1 = true →
        (attemptLoop cfg server fuel k s).2.report.stage = "complete")
      ∧ ((attemptLoop cfg server fuel k s).1 = false →
        (attemptLoop cfg server fuel k s).2.report.stage = "error") := by
  intro fuel
  induction fuel with
  | zero =>
      intro k s
      rw [attemptLoop]
      rcases hs : subscribeRaw server s with ⟨r, s1⟩
      rcases hp : processOnce r s1 with ⟨pr, s2⟩
      have hst := processOnce_ok_stage r s1
      rw [hp] at hst
      cases pr <;> simp_all [catchFail]
  | succ n ih =>
      intro k s
      rw [attemptLoop]
      rcases hs : subscribeRaw server s with ⟨r, s1⟩
      rcases hp : processOnce r s1 with ⟨pr, s2⟩
      have hst := processOnce_ok_stage r s1
      rw [hp] at hst
      cases pr with
      | ok => simpa using hst
      | err rp => exact ih (k + 1) (retryAdvance cfg (k + 1) s2)

/-! ## Helper lemmas on the pagination models -/

/-- SearchRunner's stop test on a continuing page with only a request limit
reduces to the limit comparison. -/
lemma searchStop_continuing (P : Nat) (rep : Report) (p : PageResp)
    (hp : continuing p = true) (hP : 0 < P) :
    searchStop (some { requests := some P, results := none }) rep p
      = decide (P ≤ rep.requests) := by
  have h1 : p.has_more = true := by
    have := hp
    simp [continuing, Bool.and_eq_true] at this
    exact this.1
  have h2 : cursorTruthy p.next_cursor = true := by
    have := hp
    simp [continuing, Bool.and_eq_true] at this
    exact this.2
  simp [searchStop, h1, h2, hP]

/-- With a request limit `P` and every page advertising a continuation,
SearchRunner's expand continues exactly until the requests counter reaches
`P`: starting below the limit with enough pages, the number of continue
branches is `P - requests - 1`. -/
lemma searchSteps_requestsLimit (P : Nat) :
    ∀ (ps : List PageResp) (rep : Report),
      (∀ p ∈ ps, continuing p = true) →
      rep.requests < P → P ≤ rep.requests + ps.length →
      (searchSteps (some { requests := some P, results := none }) ps rep).2.2
        = P - rep.requests - 1 := by
  intro ps
  induction ps with
  | nil =>
      intro rep _ h1 h2
      simp at h2
      omega
  | cons p rest ih =>
      intro rep hcont h1 h2
      have hP : 0 < P := by omega
      have hstop := searchStop_continuing P
        { rep with stage := "paginating", items := rep.items + p.results
                   requests := rep.requests + 1 } p
        (hcont p (List.mem_cons_self p rest)) hP
      rw [searchSteps, hstop]
      by_cases hle : P ≤ rep.requests + 1
      · simp only [decide_eq_true_eq, if_pos hle]
        omega
      · have := ih { rep with stage := "paginating", items := rep.items + p.results
                              requests := rep.requests + 1 }
          (fun q hq => hcont q (List.mem_cons_of_mem p hq))
          (by simp; omega) (by simp at h2 ⊢; omega)
        simp only [decide_eq_true_eq, if_neg hle]
        simp only [] at this
        simp [this]
        omega

/-- GetOperator's stop test never fires through the pages limit while the
requests counter is below it; on a continuing page with no results limit the
run always continues. -/
lemma getStop_pagesBelow (P : Nat) (rep : Report) (p : PageResp)
    (hreq : rep.requests < P) :
    getStop (some { pages := some P, results := none }) rep p
      = (!p.has_more || !cursorTruthy p.next_cursor) := by
  have h : ¬ P ≤ rep.requests := by omega
  simp [getStop, h]

/-- The pages limit of `GetOperator.paginated` is ineffective: because the
projection increments the requests counter only in its stop branch, the
counter is still below any positive limit whenever the stop condition reads
it, so every page up to the natural end of the cursor chain is fetched,
regardless of the limit value. -/
lemma getPagSteps_pagesIneffective (P : Nat) :
    ∀ (qs : List PageResp) (last : PageResp) (rep : Report),
      (∀ p ∈ qs, continuing p = true) →
      continuing last = false →
      rep.requests < P →
      (getPagSteps (some { pages := some P, results := none }) (qs ++ [last]) rep).2.2
        = qs.length := by
  intro qs
  induction qs with
  | nil =>
      intro last rep _ hlast hreq
      rw [List.nil_append, getPagSteps]
      have hstop : getStop (some { pages := some P, results := none }) rep last = true := by
        rw [getStop_pagesBelow P rep last hreq]
        have hne : (!last.has_more || !cursorTruthy last.next_cursor)
            = !(continuing last) := by
          simp [continuing]
        rw [hne, hlast]
        rfl
      rw [hstop]
      simp
  | cons q qs' ih =>
      intro last rep hcont hlast hreq
      rw [List.cons_append, getPagSteps]
      have hq := hcont q (List.mem_cons_self q qs')
      have hstop : getStop (some { pages := some P, results := none }) rep q = false := by
        rw [getStop_pagesBelow P rep q hreq]
        simp [continuing, Bool.and_eq_true] at hq
        simp [hq.1, hq.2]
      rw [hstop]
      have := ih last { rep with stage := "paginating" }
        (fun r hr => hcont r (List.mem_cons_of_mem q hr)) hlast (by simpa using hreq)
      simp only [] at this ⊢
      simp [this]

/-! ## Characterizations of full runs -/

/-- Processing a fresh ok Response whose body fails to parse errors without
any reporter call. -/
lemma processOnce_parseError (r : FetchResponse) (s : HState)
    (hb : s.bodyUsed = false) (hok : r.ok = true) (hp : r.parseOk = false) :
    processOnce r s
      = (.err false, { s with bodyUsed := true, processings := s.processings + 1 }) := by
  simp [processOnce, hb, hok, hp]

/-- Zero-budget reduction for a fresh call whose first response has a failing
HTTP status. -/
lemma attemptLoop_httpError_zero (cfg : HTTPConfig) (server : Nat → FetchResponse)
    (rep : Report) (h : (server 1).ok = false) :
    attemptLoop cfg server 0 0 (initialHState rep)
      = (false, catchFail
          { fired := 1, cache := some (server 1), bodyUsed := true
            report := { rep with
              errors := rep.errors + 1
              stage := "error"
              message := "a fetch error occurred: " ++ toString (server 1).status }
            delays := [], processings := 1 }) := by
  rw [attemptLoop, subscribeRaw_fresh server (initialHState rep) rfl rfl,
    processOnce_httpError (server 1) _ rfl h]
  rfl

/-- One-step reduction for a fresh call whose first response has a failing
HTTP status: one network fire, one reported error, then the retry branch. -/
lemma attemptLoop_httpError_step (cfg : HTTPConfig) (server : Nat → FetchResponse)
    (rep : Report) (n : Nat) (h : (server 1).ok = false) :
    attemptLoop cfg server (n + 1) 0 (initialHState rep)
      = attemptLoop cfg server n 1 (retryAdvance cfg 1
          { fired := 1, cache := some (server 1), bodyUsed := true
            report := { rep with
              errors := rep.errors + 1
              stage := "error"
              message := "a fetch error occurred: " ++ toString (server 1).status }
            delays := [], processings := 1 }) := by
  rw [attemptLoop, subscribeRaw_fresh server (initialHState rep) rfl rfl,
    processOnce_httpError (server 1) _ rfl h]
  rfl

/-- Full characterization of a call whose first response has a failing HTTP
status and `config.retries = R`: the stream fails, the network fires once,
R backoff delays are waited, the error counter is incremented R + 2 times
(the response branch once, the retry branch R times, the catch-all once) for
R + 1 attempt processings, and the final stage is "error". -/
lemma runData_httpError (cfg : HTTPConfig) (server : Nat → FetchResponse)
    (rep : Report) (R : Nat) (hr : cfg.retries = some R) (h : (server 1).ok = false) :
    (runData cfg server (initialHState rep)).1 = false
    ∧ (runData cfg server (initialHState rep)).2.fired = 1
    ∧ (runData cfg server (initialHState rep)).2.delays.length = R
    ∧ (runData cfg server (initialHState rep)).2.report.errors = rep.errors + R + 2
    ∧ (runData cfg server (initialHState rep)).2.processings = R + 1
    ∧ (runData cfg server (initialHState rep)).2.report.stage = "error" := by
  have hd : runData cfg server (initialHState rep)
      = attemptLoop cfg server R 0 (initialHState rep) := by
    rw [runData, hr]
    rfl
  rw [hd]
  cases R with
  | zero =>
      rw [attemptLoop_httpError_zero cfg server rep h]
      simp [catchFail]
  | succ n =>
      rw [attemptLoop_httpError_step cfg server rep n h]
      obtain ⟨h1, h2, h3, h4, h5, h6⟩ := attemptLoop_allFail cfg server (server 1) n 1
        (retryAdvance cfg 1
          { fired := 1, cache := some (server 1), bodyUsed := true
            report := { rep with
              errors := rep.errors + 1
              stage := "error"
              message := "a fetch error occurred: " ++ toString (server 1).status }
            delays := [], processings := 1 })
        (by simp [retryAdvance]) (by simp [retryAdvance])
      refine ⟨h1, ?_, ?_, ?_, ?_, h6⟩
      · rw [h2]; simp [retryAdvance]
      · rw [h3]; simp [retryAdvance]; omega
      · rw [h4]; simp [retryAdvance]; omega
      · rw [h5]; simp [retryAdvance]; omega

/-- Zero-budget reduction for a fresh call whose first response is ok but
fails to parse. -/
lemma attemptLoop_parseError_zero (cfg : HTTPConfig) (server : Nat → FetchResponse)
    (rep : Report) (hok : (server 1).ok = true) (hp : (server 1).parseOk = false) :
    attemptLoop cfg server 0 0 (initialHState rep)
      = (false, catchFail
          { fired := 1, cache := some (server 1), bodyUsed := true
            report := rep, delays := [], processings := 1 }) := by
  rw [attemptLoop, subscribeRaw_fresh server (initialHState rep) rfl rfl,
    processOnce_parseError (server 1) _ rfl hok hp]
  rfl

/-- One-step reduction for a fresh call whose first response is ok but fails
to parse: no error increment on the first attempt. -/
lemma attemptLoop_parseError_step (cfg : HTTPConfig) (server : Nat → FetchResponse)
    (rep : Report) (n : Nat) (hok : (server 1).ok = true) (hp : (server 1).parseOk = false) :
    attemptLoop cfg server (n + 1) 0 (initialHState rep)
      = attemptLoop cfg server n 1 (retryAdvance cfg 1
          { fired := 1, cache := some (server 1), bodyUsed := true
            report := rep, delays := [], processings := 1 }) := by
  rw [attemptLoop, subscribeRaw_fresh server (initialHState rep) rfl rfl,
    processOnce_parseError (server 1) _ rfl hok hp]
  rfl

/-- Full characterization of a call whose first response is ok but fails to
parse, with `config.retries = R`: the stream fails after R + 1 attempt
processings and exactly R + 1 error increments (none from the first attempt,
one per retry, one from the catch-all). -/
lemma runData_parseError (cfg : HTTPConfig) (server : Nat → FetchResponse)
    (rep : Report) (R : Nat) (hr : cfg.retries = some R)
    (hok : (server 1).ok = true) (hp : (server 1).parseOk = false) :
    (runData cfg server (initialHState rep)).1 = false
    ∧ (runData cfg server (initialHState rep)).2.fired = 1
    ∧ (runData cfg server (initialHState rep)).2.report.errors = rep.errors + R + 1
    ∧ (runData cfg server (initialHState rep)).2.processings = R + 1
    ∧ (runData cfg server (initialHState rep)).2.report.stage = "error" := by
  have hd : runData cfg server (initialHState rep)
      = attemptLoop cfg server R 0 (initialHState rep) := by
    rw [runData, hr]
    rfl
  rw [hd]
  cases R with
  | zero =>
      rw [attemptLoop_parseError_zero cfg server rep hok hp]
      simp [catchFail]
  | succ n =>
      rw [attemptLoop_parseError_step cfg server rep n hok hp]
      obtain ⟨h1, h2, h3, h4, h5, h6⟩ := attemptLoop_allFail cfg server (server 1) n 1
        (retryAdvance cfg 1
          { fired := 1, cache := some (server 1), bodyUsed := true
            report := rep, delays := [], processings := 1 })
        (by simp [retryAdvance]) (by simp [retryAdvance])
      refine ⟨h1, ?_, ?_, ?_, h6⟩
      · rw [h2]; simp [retryAdvance]
      · rw [h4]; simp [retryAdvance]; omega
      · rw [h5]; simp [retryAdvance]; omega

/-- Any data$ re-subscription from a state that already holds the cached first
answer leaves the cache and the fetch counter untouched. -/
lemma runData_keepShared (cfg : HTTPConfig) (server : Nat → FetchResponse)
    (s : HState) (hc : s.cache = some (server 1)) (hf : s.fired = 1) :
    (runData cfg server s).2.cache = some (server 1)
    ∧ (runData cfg server s).2.fired = 1 := by
  have h := attemptLoop_keepState cfg server (cfg.retries.getD 3) 0 s (server 1) hc
  rw [runData]
  exact ⟨h.1, h.2.trans hf⟩

/-- Once the first answer is cached, any further sequence of raw$ and data$
subscriptions leaves the fetch counter at 1, and every raw$ subscriber
receives exactly the cached first answer. -/
lemma subscribeAll_cached (cfg : HTTPConfig) (server : Nat → FetchResponse) :
    ∀ (cs : List Consumer) (s : HState),
      s.cache = some (server 1) → s.fired = 1 →
      (subscribeAll cfg server cs s).2.fired = 1
      ∧ ∀ r, ConsumerOutcome.response r ∈ (subscribeAll cfg server cs s).1 →
          r = server 1 := by
  intro cs
  induction cs with
  | nil => intro s hc hf; simpa [subscribeAll] using hf
  | cons c cs ih =>
      intro s hc hf
      cases c with
      | raw =>
          rw [subscribeAll, subscribeRaw_cached server s (server 1) hc]
          have h := ih s hc hf
          refine ⟨h.1, ?_⟩
          intro r hr
          simp only [List.mem_cons] at hr
          rcases hr with hr | hr
          · simpa using hr
          · exact h.2 r hr
      | data =>
          rw [subscribeAll]
          have hk := runData_keepShared cfg server s hc hf
          have h := ih (runData cfg server s).2 hk.1 hk.2
          refine ⟨h.1, ?_⟩
          intro r hr
          simp only [List.mem_cons] at hr
          rcases hr with hr | hr
          · by_cases hd : (runData cfg server s).1 <;> simp [hd] at hr
          · exact h.2 r hr

/-! ## Claim theorems -/

/-- C1 counterexample: an HTTP 404 with retries = 3 does NOT fail immediately —
the failure passes through the full retry/backoff schedule: three backoff
waits of 1000, 2000 and 4000 ms and four attempt processings occur before the
error surfaces (while the network does fire only once, via the response
cache). -/
theorem c1_counterexample :
    (runData ⟨none, some 3, none⟩ server404 (initialHState rep0)).2.delays
      = [1000, 2000, 4000]
    ∧ (runData ⟨none, some 3, none⟩ server404 (initialHState rep0)).2.delays ≠ []
    ∧ (runData ⟨none, some 3, none⟩ server404 (initialHState rep0)).2.processings = 4 :=
  ⟨rfl, by decide, rfl⟩

/-- C1 (amended): for every call whose first response has a failing HTTP
status (any 4xx/5xx — the code has no retryable/non-retryable classification)
and retry budget R, exactly one network fetch occurs, but only because the
cached response is replayed to every retry; the failure is not surfaced
immediately: it passes through the full retry/backoff schedule of R delays
and R + 1 attempt processings and ends with stage "error". -/
theorem c1_amended (cfg : HTTPConfig) (server : Nat → FetchResponse)
    (rep : Report) (R : Nat) (hr : cfg.retries = some R)
    (h : (server 1).ok = false) :
    (runData cfg server (initialHState rep)).1 = false
    ∧ (runData cfg server (initialHState rep)).2.fired = 1
    ∧ (runData cfg server (initialHState rep)).2.delays.length = R
    ∧ (runData cfg server (initialHState rep)).2.processings = R + 1
    ∧ (runData cfg server (initialHState rep)).2.report.stage = "error" := by
  obtain ⟨h1, h2, h3, _, h5, h6⟩ := runData_httpError cfg server rep R hr h
  exact ⟨h1, h2, h3, h5, h6⟩

/-- C1 amended witness: the concrete 404-with-retries-3 call. -/
theorem c1_amended_witness :
    (⟨none, some 3, none⟩ : HTTPConfig).retries = some 3
    ∧ (server404 1).ok = false
    ∧ (runData ⟨none, some 3, none⟩ server404 (initialHState rep0)).2.fired = 1
    ∧ (runData ⟨none, some 3, none⟩ server404 (initialHState rep0)).2.delays.length = 3 :=
  ⟨rfl, rfl, (c1_amended ⟨none, some 3, none⟩ server404 rep0 3 rfl rfl).2.1,
    (c1_amended ⟨none, some 3, none⟩ server404 rep0 3 rfl rfl).2.2.1⟩

/-- C2 counterexample: with backoff = 100 ms and two retries (first response
503), the waits are the constant [100, 100], cumulative 200 ms — not the
exponential backoff × 2^k schedule whose cumulative would be at least
100 + 200 = 300 ms. -/
theorem c2_counterexample :
    (runData ⟨none, some 2, some 100⟩ server503x (initialHState rep0)).2.delays
      = [100, 100]
    ∧ ¬ (300 ≤ ((runData ⟨none, some 2, some 100⟩ server503x
          (initialHState rep0)).2.delays).sum) :=
  ⟨rfl, by decide⟩

/-- C2 (amended): the delay before the k-th retry is the configured backoff
used as a constant when present (the `??` binds looser than the
multiplication), and 500 × 2^k when absent (k is the post-increment scan
count, so 1-based); in both cases the delay sequence is non-decreasing in k,
and in the default configuration the schedule materializes in a failing run as
[1000, 2000, 4000]. -/
theorem c2_amended :
    (∀ (t r : Option Nat) (b k : Nat), retryDelay ⟨t, r, some b⟩ k = b)
    ∧ (∀ (t r : Option Nat) (k : Nat), retryDelay ⟨t, r, none⟩ k = 500 * 2 ^ k)
    ∧ (∀ (cfg : HTTPConfig) (k : Nat), retryDelay cfg k ≤ retryDelay cfg (k + 1))
    ∧ (runData ⟨none, some 3, none⟩ server404 (initialHState rep0)).2.delays
        = [retryDelay ⟨none, some 3, none⟩ 1, retryDelay ⟨none, some 3, none⟩ 2,
           retryDelay ⟨none, some 3, none⟩ 3] := by
  refine ⟨fun t r b k => rfl, fun t r k => rfl, fun cfg k => ?_, rfl⟩
  cases hb : cfg.backoff with
  | none =>
      simp only [retryDelay, hb, Option.getD_none]
      exact Nat.mul_le_mul_left 500 (Nat.pow_le_pow_right (by norm_num) (Nat.le_succ k))
  | some b => simp [retryDelay, hb]

/-- C3 at the failing input: pages of 11/11/8 with a results limit of 25 emit
all 30 results untrimmed across 3 requests — the reporter's items counter is
only incremented in the stop branch, so the trimming map and the limit check
always read 0 — and a results limit of 5 emits 5 results from EVERY page
(15 in total) instead of capping the run at 5. -/
theorem c3_code_eval :
    getPagEmitted (some { pages := none, results := some 25 }) ps3 rep0 = [11, 11, 8]
    ∧ (getPagEmitted (some { pages := none, results := some 25 }) ps3 rep0).sum = 30
    ∧ getPagFetches (some { pages := none, results := some 25 }) ps3 rep0 = 3
    ∧ getPagEmitted (some { pages := none, results := some 5 }) ps3 rep0 = [5, 5, 5] :=
  ⟨rfl, rfl, rfl, rfl⟩

/-- C4 counterexample: with a pages limit of 1 and three pages available,
`GetOperator.paginated` issues 3 page requests, not 1: the requests counter it
compares against the limit is only incremented on termination. -/
theorem c4_counterexample :
    getPagFetches (some { pages := some 1, results := none }) ps3 rep0 = 3
    ∧ getPagFetches (some { pages := some 1, results := none }) ps3 rep0 ≠ 1 :=
  ⟨rfl, by decide⟩

/-- C4 (amended): in SearchRunner, with limits.requests = P ≥ 1 and at least
P continuing pages available, exactly P network requests are issued; in
GetOperator.paginated the pages limit is ineffective — the stop condition
reads a requests counter that is still below any positive limit, so every
page up to the natural end of the cursor chain is fetched regardless of P. -/
theorem c4_amended (P : Nat) (ps qs : List PageResp) (last : PageResp)
    (rep rep2 : Report)
    (hP : 1 ≤ P) (hcont : ∀ p ∈ ps, continuing p = true) (hlen : P ≤ ps.length)
    (hreq : rep.requests = 0)
    (hqs : ∀ p ∈ qs, continuing p = true) (hlast : continuing last = false)
    (hreq2 : rep2.requests < P) :
    searchFetches (some { requests := some P, results := none }) ps rep = P
    ∧ getPagFetches (some { pages := some P, results := none }) (qs ++ [last]) rep2
        = qs.length + 1 := by
  constructor
  · rw [searchFetches, searchSteps_requestsLimit P ps rep hcont (by omega) (by omega)]
    omega
  · rw [getPagFetches, getPagSteps_pagesIneffective P qs last rep2 hqs hlast hreq2]
    omega

/-- C4 amended witness: request limit 2 with three continuing pages on the
search path (exactly 2 requests) and pages limit 2 on the get path (all
3 pages fetched). -/
theorem c4_amended_witness :
    searchFetches (some { requests := some 2, results := none }) ps3cont rep0 = 2
    ∧ getPagFetches (some { pages := some 2, results := none }) ps3 rep0 = 3 := by
  have h := c4_amended 2 ps3cont [⟨11, true, some "a"⟩, ⟨11, true, some "b"⟩]
    ⟨8, false, none⟩ rep0 rep0 (by norm_num) (by decide) (by decide) rfl
    (by decide) (by decide) (by decide)
  exact ⟨h.1, h.2⟩

/-- C5 counterexample: cancelling after the first page emission of a 3-page
run still issues one more page request (the takeUntil sits before the expand,
whose inner subscriptions never observe the signal), and the global-timeout
cancellation path leaves the reporter in stage "error" — not a stage
distinguishable from the error stage. -/
theorem c5_counterexample :
    (getPagCancelled none ps3 rep0 1).2.2 = 1
    ∧ (getPagCancelled none ps3 rep0 1).2.2 ≠ 0
    ∧ (execTimeoutHandler 8000 rep0).stage = "error" :=
  ⟨rfl, by decide, rfl⟩

/-- C5 (amended): the cancellation signal halts the run only when it fires
before the first page emission (no further request, nothing emitted); a
cancellation after the k-th emission leaves the emitted stream — and hence the
page requests — unchanged to the natural end; and the global-timeout
cancellation path always sets the reporter stage to "error", so the terminal
stage does not distinguish cancellation-by-timeout from an error (only the
message does). -/
theorem c5_amended :
    (∀ (limits : Option Limits) (ps : List PageResp) (rep : Report),
        (getPagCancelled limits ps rep 0).2.2 = 0
        ∧ (getPagCancelled limits ps rep 0).1 = [])
    ∧ (∀ (limits : Option Limits) (ps : List PageResp) (rep : Report) (k : Nat),
        (getPagCancelled limits ps rep (k + 1)).1 = getPagEmitted limits ps rep)
    ∧ (∀ (t : Nat) (rep : Report), (execTimeoutHandler t rep).stage = "error") := by
  refine ⟨fun l ps rep => ⟨rfl, rfl⟩, fun l ps rep k => ?_, fun t rep => rfl⟩
  simp [getPagCancelled]

/-- C6 at the failing input: a server answering 503, 503, then 200, with
retries = 2 (backoff 100): the underlying network fetch fires exactly ONCE —
each retry replays the cached 503 (whose body is already consumed) — so the
call ends in terminal failure after 3 attempt processings instead of the
claimed 3 network attempts and terminal success. -/
theorem c6_code_eval :
    (runData ⟨none, some 2, some 100⟩ server503x (initialHState rep0)).1 = false
    ∧ (runData ⟨none, some 2, some 100⟩ server503x (initialHState rep0)).2.fired = 1
    ∧ (runData ⟨none, some 2, some 100⟩ server503x (initialHState rep0)).2.processings = 3 :=
  ⟨rfl, rfl, rfl⟩

/-- C7 counterexample: an HTTP 404 with retries = 0 is a single attempt whose
failure increments the error counter TWICE — once in the response-error
branch and once in the surrounding catch-all. -/
theorem c7_counterexample :
    (runData ⟨none, some 0, none⟩ server404 (initialHState rep0)).2.report.errors = 2
    ∧ (runData ⟨none, some 0, none⟩ server404 (initialHState rep0)).2.processings = 1 :=
  ⟨rfl, rfl⟩

/-- C7 (amended): for a call whose first response has a failing HTTP status,
the error counter is incremented attempts + 1 times (the response branch and
the catch-all both fire in addition to one increment per retry); only for a
parse failure on an ok status is the counter incremented exactly once per
attempt. -/
theorem c7_amended :
    (∀ (cfg : HTTPConfig) (server : Nat → FetchResponse) (rep : Report) (R : Nat),
        cfg.retries = some R → (server 1).ok = false →
        (runData cfg server (initialHState rep)).2.report.errors
          = rep.errors + ((runData cfg server (initialHState rep)).2.processings + 1))
    ∧ (∀ (cfg : HTTPConfig) (server : Nat → FetchResponse) (rep : Report) (R : Nat),
        cfg.retries = some R → (server 1).ok = true → (server 1).parseOk = false →
        (runData cfg server (initialHState rep)).2.report.errors
          = rep.errors + (runData cfg server (initialHState rep)).2.processings) := by
  constructor
  · intro cfg server rep R hr h
    obtain ⟨_, _, _, h4, h5, _⟩ := runData_httpError cfg server rep R hr h
    omega
  · intro cfg server rep R hr hok hp
    obtain ⟨_, _, h3, h4, _⟩ := runData_parseError cfg server rep R hr hok hp
    omega

/-- C7 amended witness: the 404-with-retries-0 call, two increments for one
attempt. -/
theorem c7_amended_witness :
    (⟨none, some 0, none⟩ : HTTPConfig).retries = some 0
    ∧ (server404 1).ok = false
    ∧ (runData ⟨none, some 0, none⟩ server404 (initialHState rep0)).2.report.errors
        = rep0.errors
          + ((runData ⟨none, some 0, none⟩ server404 (initialHState rep0)).2.processings + 1) :=
  ⟨rfl, rfl, c7_amended.1 ⟨none, some 0, none⟩ server404 rep0 0 rfl rfl⟩

/-- C8 counterexample: two data$ subscribers on the same successful
HTTPResponse: the network fires once, but the outcomes are NOT identical —
the first subscriber receives the parsed payload while the second one's
re-run of the projection fails on the already-consumed body. -/
theorem c8_counterexample :
    (subscribeAll ⟨none, some 0, none⟩ serverOk [.data, .data] (initialHState rep0)).1
      = [.parsed, .failed]
    ∧ (subscribeAll ⟨none, some 0, none⟩ serverOk [.data, .data]
        (initialHState rep0)).2.fired = 1 :=
  ⟨rfl, rfl⟩

/-- C8 (amended): for any nonempty sequence of raw$/data$ subscriptions on
one HTTPResponse, the underlying network fetch fires exactly once, and every
raw$ subscriber observes the identical cached first Response; identical
outcomes do NOT extend to multiple data$ subscribers (see the
counterexample). -/
theorem c8_amended (cfg : HTTPConfig) (server : Nat → FetchResponse)
    (rep : Report) (cs : List Consumer) (h : cs ≠ []) :
    (subscribeAll cfg server cs (initialHState rep)).2.fired = 1
    ∧ ∀ r, ConsumerOutcome.response r ∈ (subscribeAll cfg server cs (initialHState rep)).1 →
        r = server 1 := by
  cases cs with
  | nil => exact absurd rfl h
  | cons c cs =>
      cases c with
      | raw =>
          rw [subscribeAll, subscribeRaw_fresh server (initialHState rep) rfl rfl]
          have hsub := subscribeAll_cached cfg server cs
            { initialHState rep with fired := 1, cache := some (server 1) } rfl rfl
          refine ⟨hsub.1, ?_⟩
          intro r hr
          simp only [List.mem_cons] at hr
          rcases hr with hr | hr
          · simpa using hr
          · exact hsub.2 r hr
      | data =>
          rw [subscribeAll]
          have hk : (runData cfg server (initialHState rep)).2.cache = some (server 1)
              ∧ (runData cfg server (initialHState rep)).2.fired = 1 := by
            rw [runData]
            exact attemptLoop_freshOnce cfg server (cfg.retries.getD 3) 0
              (initialHState rep) rfl rfl
          have hsub := subscribeAll_cached cfg server cs
            (runData cfg server (initialHState rep)).2 hk.1 hk.2
          refine ⟨hsub.1, ?_⟩
          intro r hr
          simp only [List.mem_cons] at hr
          rcases hr with hr | hr
          · by_cases hd : (runData cfg server (initialHState rep)).1 <;> simp [hd] at hr
          · exact hsub.2 r hr

/-- C8 amended witness: a raw$ plus a data$ subscriber, one network fire. -/
theorem c8_amended_witness :
    ([Consumer.raw, Consumer.data] ≠ ([] : List Consumer))
    ∧ (subscribeAll ⟨none, some 0, none⟩ serverOk [.raw, .data]
        (initialHState rep0)).2.fired = 1 :=
  ⟨by decide, (c8_amended ⟨none, some 0, none⟩ serverOk rep0 [.raw, .data] (by decide)).1⟩

/-- C9: when config.timeout is absent or 0, HTTP.fetch installs no timeout
race at all: the returned stream is exactly the plain request pipeline — the
race winner flag is never consulted — nothing is aborted by a per-call
deadline, and the reporter can only end in stage "complete" or "error",
never "timeout". -/
theorem c9_no_timeout_race (cfg : HTTPConfig) (server : Nat → FetchResponse)
    (rep : Report) (w : Bool)
    (h : cfg.timeout = none ∨ cfg.timeout = some 0) :
    runFetch cfg server rep w = runFetch cfg server rep false
    ∧ (runFetch cfg server rep w).aborted = false
    ∧ ((runFetch cfg server rep w).state.report.stage = "complete"
       ∨ (runFetch cfg server rep w).state.report.stage = "error") := by
  have hti : timeoutInstalled cfg = false := by
    rcases h with h | h <;> simp [timeoutInstalled, h]
  refine ⟨by simp [runFetch, hti], by simp [runFetch, hti], ?_⟩
  simp only [runFetch, hti, Bool.false_and, if_neg, Bool.false_eq_true,
    not_false_eq_true]
  have hst := attemptLoop_stage cfg server (cfg.retries.getD 3) 0 (initialHState rep)
  rw [runData] at *
  cases hres : (attemptLoop cfg server (cfg.retries.getD 3) 0 (initialHState rep)).1 with
  | false => exact Or.inr (hst.2 hres)
  | true => exact Or.inl (hst.1 hres)

/-- C9 witness: timeout absent, successful server, race flag set. -/
theorem c9_no_timeout_race_witness :
    ((⟨none, some 0, none⟩ : HTTPConfig).timeout = none
      ∨ (⟨none, some 0, none⟩ : HTTPConfig).timeout = some 0)
    ∧ (runFetch ⟨none, some 0, none⟩ serverOk rep0 true).aborted = false :=
  ⟨Or.inl rfl,
    (c9_no_timeout_race ⟨none, some 0, none⟩ serverOk rep0 true (Or.inl rfl)).2.1⟩

/-- C10: the raw$ of the HTTPResponse returned by GetOperator.paginated is
backed by its own HTTP.fetch instance, distinct from every instance the data$
run allocates: subscribing raw$ adds one network request on top of the data
run (two requests in total for data plus raw on any server), so raw$ never
reflects the execution that produced the emitted data. -/
theorem c10_raw_independent (limits : Option Limits) (ps : List PageResp)
    (rep : Report) :
    (pagInstances limits ps rep).rawInstance ∉ (pagInstances limits ps rep).dataInstances
    ∧ pagNetworkRequests limits ps rep true true = getPagFetches limits ps rep + 1
    ∧ pagNetworkRequests limits ps rep true false = getPagFetches limits ps rep
    ∧ pagNetworkRequests limits ps rep false true = 1
    ∧ 2 ≤ pagNetworkRequests limits ps rep true true := by
  refine ⟨?_, by simp [pagNetworkRequests], by simp [pagNetworkRequests],
    by simp [pagNetworkRequests], ?_⟩
  · simp [pagInstances, List.mem_map]
  · simp only [pagNetworkRequests, getPagFetches, if_pos]
    omega

end NotionKit
